import Mathlib

/-!
Verification of the cross-cloud credential and session broker
(`lib/cloud/clients.go`, `lib/utils/aws/credentials.go`): chain validation,
cache-key derivation, the lazily populated session cache, the test double,
`Close`, and the TTL credential getter configuration.

Machine integers do not overflow in this code (counters only grow by one per
role in a list), so they are embedded as `Nat`/`Int`.  Sessions and clients
are handles identified by an allocation number; external SDK calls
are environments deciding success or failure of each construction attempt.
-/

/-- One hop of delegation (`services.AssumeRole`). -/
structure AssumeRole where
  RoleARN : String
  ExternalID : String
deriving DecidableEq, Repr

/-- Error values produced by the broker (`trace.BadParameter`,
`trace.NotFound`, wrapped upstream failures). -/
inductive CloudErr where
  | badParameter : String → CloudErr
  | notFound : String → CloudErr
  | upstream : String → CloudErr
deriving DecidableEq, Repr

/-- The fragment appended for one role:
`fmt.Sprintf(":Role[%d]:ARN[%v]:ExternalID[%v]", roleCount, RoleARN, ExternalID)`. -/
def roleFragment (n : Nat) (r : AssumeRole) : String :=
  ":Role[" ++ toString n ++ "]:ARN[" ++ r.RoleARN ++ "]:ExternalID[" ++ r.ExternalID ++ "]"

/-- `AWSSessionCacheKeyBuilder`: a string builder plus a role counter. -/
structure AWSSessionCacheKeyBuilder where
  sb : String
  roleCount : Nat
deriving DecidableEq, Repr

/-- `NewAWSSessionCacheKeyBuilder`: seeded with the region. -/
def NewAWSSessionCacheKeyBuilder (region : String) : AWSSessionCacheKeyBuilder :=
  { sb := region, roleCount := 0 }

/-- `AWSSessionCacheKeyBuilder.AddRole`: appends the ordinal-tagged fragment
and bumps the counter. -/
def AWSSessionCacheKeyBuilder.AddRole (c : AWSSessionCacheKeyBuilder) (awsRole : AssumeRole) :
    AWSSessionCacheKeyBuilder :=
  { sb := c.sb ++ roleFragment c.roleCount awsRole, roleCount := c.roleCount + 1 }

/-- The key obtained by replaying `AddRole` over a whole chain, as
`TestCloudClients.GetAWSSession` does, and as the real broker does for the
last hop of the chain. -/
def chainCacheKey (region : String) (roles : List AssumeRole) : String :=
  (roles.foldl AWSSessionCacheKeyBuilder.AddRole (NewAWSSessionCacheKeyBuilder region)).sb

/-- The successive cache keys consulted as a chain is walked hop by hop
(the `keyBuilder.AddRole`/`keyBuilder.String` loop of `GetAWSSession`). -/
def prefixKeys (kb : AWSSessionCacheKeyBuilder) : List AssumeRole → List String
  | [] => []
  | r :: tl => (kb.AddRole r).sb :: prefixKeys (kb.AddRole r) tl

/-- Concatenation of the fragments of a chain starting at ordinal `n`. -/
def chainFragments (n : Nat) : List AssumeRole → String
  | [] => ""
  | r :: tl => roleFragment n r ++ chainFragments (n + 1) tl

theorem foldl_AddRole_sb (roles : List AssumeRole) :
    ∀ s n, ((roles.foldl AWSSessionCacheKeyBuilder.AddRole ⟨s, n⟩).sb)
      = s ++ chainFragments n roles := by
  induction roles with
  | nil => intro s n; simp [chainFragments]
  | cons r tl ih =>
      intro s n
      simp only [List.foldl_cons, AWSSessionCacheKeyBuilder.AddRole, chainFragments]
      rw [ih]
      rw [String.append_assoc]

theorem chainCacheKey_eq (region : String) (roles : List AssumeRole) :
    chainCacheKey region roles = region ++ chainFragments 0 roles := by
  simpa [chainCacheKey, NewAWSSessionCacheKeyBuilder] using foldl_AddRole_sb roles region 0

instance {ε α : Type} [DecidableEq ε] [DecidableEq α] : DecidableEq (Except ε α) := fun x y =>
  match x, y with
  | .ok a, .ok b => decidable_of_iff (a = b) (by simp)
  | .error a, .error b => decidable_of_iff (a = b) (by simp)
  | .ok _, .error _ => isFalse (fun h => Except.noConfusion h)
  | .error _, .ok _ => isFalse (fun h => Except.noConfusion h)

/-- A parsed AWS ARN (`arn.ARN` of the AWS SDK): six colon-separated
sections, the sixth taking the remainder of the string. -/
structure ARN where
  Partition : String
  Service : String
  Region : String
  AccountID : String
  Resource : String
deriving DecidableEq, Repr

/-- Whether `p` begins `s` (`strings.HasPrefix`), computed on character
lists so that concrete instances evaluate. -/
def strPrefixOf (p s : String) : Bool := p.data.isPrefixOf s.data

/-- `strings.Split(s, ":")` on character lists. -/
def splitColonAux : List Char → List Char → List String
  | [], acc => [String.mk acc.reverse]
  | c :: tl, acc =>
      if c = ':' then String.mk acc.reverse :: splitColonAux tl []
      else splitColonAux tl (c :: acc)

/-- `strings.Split(s, ":")`. -/
def splitColon (s : String) : List String := splitColonAux s.data []

/-- Rejoin pieces with colons. -/
def joinColon : List String → String
  | [] => ""
  | [x] => x
  | x :: tl => x ++ ":" ++ joinColon tl

/-- `strings.SplitN(s, ":", n)`: split on colons, the last piece keeping
any further colons. -/
def splitNColon (s : String) (n : Nat) : List String :=
  let parts := splitColon s
  if parts.length ≤ n then parts
  else parts.take (n - 1) ++ [joinColon (parts.drop (n - 1))]

/-- Modelled from the spec: the role-ARN parser (`awsutils.ParseRoleARN`,
whose source is not part of this tree).  The spec glossary: an ARN is "a
structured identifier naming a cloud resource (here, specifically an IAM
role), encoding partition, account, and resource path", and "a hop with an
unparsable or non-role ARN fails".  The ARN grammar is the SDK's
`arn:partition:service:region:account:resource`; an IAM role resource is
`role/<name>`. -/
def ParseRoleARN (s : String) : Option ARN :=
  if strPrefixOf "arn:" s then
    match splitNColon s 6 with
    | [_, p, svc, reg, acct, res] =>
        if svc = "iam" ∧ strPrefixOf "role/" res = true ∧ res ≠ "role/" then
          some ⟨p, svc, reg, acct, res⟩
        else none
    | _ => none
  else none

/-- Modelled from the spec: the region-to-partition mapping
(`apiawsutils.GetPartitionFromRegion`, whose source is not part of this
tree).  The spec: a partition is "a top-level grouping of cloud
regions/accounts (e.g., commercial vs. sovereign/government clouds)";
sovereign (China) and government regions carry distinguishing region-name
beginnings. -/
def GetPartitionFromRegion (region : String) : String :=
  if strPrefixOf "cn-" region then "aws-cn"
  else if strPrefixOf "us-gov-" region then "aws-us-gov"
  else "aws"

/-- `filterAssumeRoles`: drop hops whose `RoleARN` is empty. -/
def filterAssumeRoles (roles : List AssumeRole) : List AssumeRole :=
  roles.filter (fun r => r.RoleARN ≠ "")

/-- The parse-and-partition pass of `checkAndSetAssumeRoles`: parse every
`RoleARN` (`awsutils.ParseRoleARN`) and require each parsed ARN to belong
to the partition of the region (`awsutils.CheckARNPartitionAndAccount` with
an empty wanted account). -/
def parseChainARNs (partition : String) : List AssumeRole → Except CloudErr (List ARN)
  | [] => .ok []
  | r :: tl =>
      match ParseRoleARN r.RoleARN with
      | none => .error (.badParameter ("failed to parse role ARN " ++ r.RoleARN))
      | some a =>
          if a.Partition = partition then
            match parseChainARNs partition tl with
            | .ok tlA => .ok (a :: tlA)
            | .error e => .error e
          else
            .error (.badParameter ("expected AWS partition " ++ partition
              ++ " but got partition " ++ a.Partition))

/-- The consecutive-pair walk of `checkAndSetAssumeRoles`, carrying the
previous hop's parsed ARN and role: same account clears the next hop's
`ExternalID`; a cross-account hop without an `ExternalID` fails naming both
role ARNs; otherwise the hop is kept. -/
def walkFrom (prev : ARN × AssumeRole) : List (ARN × AssumeRole) → Except CloudErr (List AssumeRole)
  | [] => .ok []
  | (a, r) :: tl =>
      if prev.1.AccountID = a.AccountID then
        match walkFrom (a, { r with ExternalID := "" }) tl with
        | .ok out => .ok ({ r with ExternalID := "" } :: out)
        | .error e => .error e
      else if r.ExternalID = "" then
        .error (.badParameter (prev.2.RoleARN ++ " cannot assume external account role "
          ++ r.RoleARN ++ " without an external ID"))
      else
        match walkFrom (a, r) tl with
        | .ok out => .ok (r :: out)
        | .error e => .error e

/-- `checkAndSetAssumeRoles`: filter out empty-ARN hops, accept the empty
chain unchanged, parse every ARN against the region's partition, then walk
consecutive pairs. -/
def checkAndSetAssumeRoles (region : String) (roles0 : List AssumeRole) :
    Except CloudErr (List AssumeRole) :=
  match filterAssumeRoles roles0 with
  | [] => .ok []
  | r0 :: rs =>
      match parseChainARNs (GetPartitionFromRegion region) (r0 :: rs) with
      | .error e => .error e
      | .ok arns =>
          match arns with
          | [] => .ok (r0 :: rs)
          | a0 :: asTl =>
              match walkFrom (a0, r0) (asTl.zip rs) with
              | .ok tl => .ok (r0 :: tl)
              | .error e => .error e

example :
    checkAndSetAssumeRoles "us-east-1"
      [⟨"arn:aws:iam::111111111111:role/alpha", ""⟩] =
    .ok [⟨"arn:aws:iam::111111111111:role/alpha", ""⟩] := by decide

example :
    checkAndSetAssumeRoles "us-east-1"
      [⟨"arn:aws:iam::111111111111:role/alpha", ""⟩,
       ⟨"arn:aws:iam::111111111111:role/beta", "x"⟩] =
    .ok [⟨"arn:aws:iam::111111111111:role/alpha", ""⟩,
         ⟨"arn:aws:iam::111111111111:role/beta", ""⟩] := by decide

example :
    checkAndSetAssumeRoles "us-east-1"
      [⟨"arn:aws:iam::111111111111:role/alpha", ""⟩,
       ⟨"arn:aws:iam::222222222222:role/beta", ""⟩] =
    .error (.badParameter ("arn:aws:iam::111111111111:role/alpha cannot assume external account role arn:aws:iam::222222222222:role/beta without an external ID")) := by decide

example :
    checkAndSetAssumeRoles "cn-north-1"
      [⟨"arn:aws:iam::111111111111:role/alpha", ""⟩] =
    .error (.badParameter ("expected AWS partition aws-cn but got partition aws")) := by decide

/-- First single-hop chain of the colliding pair: the delimiter text sits
inside the role ARN (the resource section of an ARN may contain any
characters, colons included, since the sixth split section takes the rest
of the string). -/
def collisionChainA : List AssumeRole :=
  [⟨"arn:aws:iam::123456789012:role/alpha]:ExternalID[x", ""⟩]

/-- Second single-hop chain of the colliding pair: the same delimiter text
sits inside the external ID instead. -/
def collisionChainB : List AssumeRole :=
  [⟨"arn:aws:iam::123456789012:role/alpha", "x]:ExternalID["⟩]

/-- Claim C1 (refuted, code bug): the cache key builder is not injective
over role chains.  Two different single-hop chains — one carrying the
literal fragment delimiter inside its `RoleARN`, the other inside its
`ExternalID` — are both accepted unchanged by `checkAndSetAssumeRoles`, yet
replaying `AddRole` over them from the same region-seeded builder yields
the identical cache key, the field-boundary ambiguity the key format was
written to prevent. -/
theorem cacheKeyBuilder_collision_on_delimiter_fields :
    collisionChainA ≠ collisionChainB ∧
    chainCacheKey "us-east-1" collisionChainA = chainCacheKey "us-east-1" collisionChainB ∧
    checkAndSetAssumeRoles "us-east-1" collisionChainA = .ok collisionChainA ∧
    checkAndSetAssumeRoles "us-east-1" collisionChainB = .ok collisionChainB := by
  refine ⟨by decide, by decide, by decide, by decide⟩

theorem roleFragment_length_pos (n : Nat) (r : AssumeRole) :
    0 < (roleFragment n r).length := by
  simp only [roleFragment, String.length_append]
  have h6 : (":Role[" : String).length = 6 := by decide
  omega

theorem chainFragments_length_pos (n : Nat) (r : AssumeRole) (tl : List AssumeRole) :
    0 < (chainFragments n (r :: tl)).length := by
  simp only [chainFragments, String.length_append]
  have := roleFragment_length_pos n r
  omega

theorem chainCacheKey_length_gt (region : String) (r : AssumeRole) (tl : List AssumeRole) :
    region.length < (chainCacheKey region (r :: tl)).length := by
  rw [chainCacheKey_eq, String.length_append]
  have := chainFragments_length_pos 0 r tl
  omega

theorem prefixKeys_length_gt (roles : List AssumeRole) :
    ∀ kb : AWSSessionCacheKeyBuilder, ∀ k ∈ prefixKeys kb roles, kb.sb.length < k.length := by
  induction roles with
  | nil => intro kb k hk; simp [prefixKeys] at hk
  | cons r tl ih =>
      intro kb k hk
      simp only [prefixKeys, List.mem_cons] at hk
      rcases hk with h | h
      · subst h
        simp only [AWSSessionCacheKeyBuilder.AddRole, String.length_append]
        have := roleFragment_length_pos kb.roleCount r
        omega
      · have := ih (kb.AddRole r) k h
        simp only [AWSSessionCacheKeyBuilder.AddRole, String.length_append] at this
        have hp := roleFragment_length_pos kb.roleCount r
        omega

/-- Claim C10 (confirmed): for a non-empty chain every cache key produced
while walking the chain — every prefix key and in particular the full-chain
key — is strictly longer than the bare region string, so assumed-role cache
entries can never collide with the base-session entry stored under the
region alone in the shared `awsSessions` map. -/
theorem chain_keys_extend_region (region : String) (roles : List AssumeRole)
    (h : roles ≠ []) :
    chainCacheKey region roles ≠ region ∧
    region.length < (chainCacheKey region roles).length ∧
    ∀ k ∈ prefixKeys (NewAWSSessionCacheKeyBuilder region) roles,
      region.length < k.length ∧ k ≠ region := by
  match roles, h with
  | r :: tl, _ =>
    have hlen := chainCacheKey_length_gt region r tl
    refine ⟨?_, hlen, ?_⟩
    · intro heq
      rw [heq] at hlen
      omega
    · intro k hk
      have := prefixKeys_length_gt (r :: tl) (NewAWSSessionCacheKeyBuilder region) k hk
      simp only [NewAWSSessionCacheKeyBuilder] at this
      refine ⟨this, ?_⟩
      intro heq
      rw [heq] at this
      omega

/-- Closed check of `chain_keys_extend_region` at a concrete one-hop chain. -/
theorem chain_keys_extend_region_witness :
    ([(⟨"arn:aws:iam::111111111111:role/alpha", ""⟩ : AssumeRole)] ≠ []) ∧
    chainCacheKey "us-east-1" [⟨"arn:aws:iam::111111111111:role/alpha", ""⟩] ≠ "us-east-1" := by
  refine ⟨by decide, ?_⟩
  exact (chain_keys_extend_region "us-east-1"
    [⟨"arn:aws:iam::111111111111:role/alpha", ""⟩] (by decide)).1

/-- Account of the hop preceding position `j` of the pair list (position
`j = 0` is preceded by the carried-in hop `p`). -/
def prevAcc (p : ARN × AssumeRole) (l : List (ARN × AssumeRole)) : Nat → String
  | 0 => p.1.AccountID
  | j + 1 =>
      match l.get? j with
      | some q => q.1.AccountID
      | none => p.1.AccountID

/-- Role ARN of the hop preceding position `j` of the pair list. -/
def prevARNName (p : ARN × AssumeRole) (l : List (ARN × AssumeRole)) : Nat → String
  | 0 => p.2.RoleARN
  | j + 1 =>
      match l.get? j with
      | some q => q.2.RoleARN
      | none => p.2.RoleARN

theorem prevAcc_cons (p q : ARN × AssumeRole) (a1 : ARN) (r1 : AssumeRole)
    (tl : List (ARN × AssumeRole)) (j : Nat) (hq : q.1 = a1) (hb : j < tl.length) :
    prevAcc q tl j = prevAcc p ((a1, r1) :: tl) (j + 1) := by
  match j with
  | 0 => simp [prevAcc, hq]
  | k + 1 =>
      have hk : k < tl.length := Nat.lt_of_succ_lt hb
      have hg : tl.get? k = some (tl.get ⟨k, hk⟩) := List.get?_eq_get hk
      simp only [List.get?_eq_getElem?] at hg
      simp [prevAcc, hg]

theorem prevARNName_cons (p q : ARN × AssumeRole) (a1 : ARN) (r1 : AssumeRole)
    (tl : List (ARN × AssumeRole)) (j : Nat) (hq : q.2.RoleARN = r1.RoleARN) (hb : j < tl.length) :
    prevARNName q tl j = prevARNName p ((a1, r1) :: tl) (j + 1) := by
  match j with
  | 0 => simp [prevARNName, hq]
  | k + 1 =>
      have hk : k < tl.length := Nat.lt_of_succ_lt hb
      have hg : tl.get? k = some (tl.get ⟨k, hk⟩) := List.get?_eq_get hk
      simp only [List.get?_eq_getElem?] at hg
      simp [prevARNName, hg]

theorem zipGet {α β : Type} (l1 : List α) :
    ∀ (l2 : List β) (n : Nat) (a : α) (b : β), l1.get? n = some a → l2.get? n = some b →
      (l1.zip l2).get? n = some (a, b) := by
  induction l1 with
  | nil => intro l2 n a b h _; simp at h
  | cons x tl ih =>
      intro l2 n a b h1 h2
      cases l2 with
      | nil => simp at h2
      | cons y tl2 =>
          match n with
          | 0 =>
              simp only [List.get?_cons_zero, Option.some.injEq] at h1 h2
              simp [List.zip_cons_cons, h1, h2]
          | n + 1 =>
              simp only [List.get?_cons_succ] at h1 h2
              simpa [List.zip_cons_cons] using ih tl2 n a b h1 h2

theorem zipGetRev {α β : Type} (l1 : List α) :
    ∀ (l2 : List β) (n : Nat) (a : α) (b : β), (l1.zip l2).get? n = some (a, b) →
      l1.get? n = some a ∧ l2.get? n = some b := by
  induction l1 with
  | nil => intro l2 n a b h; simp [List.zip] at h
  | cons x tl ih =>
      intro l2 n a b h
      cases l2 with
      | nil => simp [List.zip] at h
      | cons y tl2 =>
          match n with
          | 0 =>
              simp only [List.zip_cons_cons, List.get?_cons_zero, Option.some.injEq,
                Prod.mk.injEq] at h
              simp [h.1, h.2]
          | n + 1 =>
              simp only [List.zip_cons_cons, List.get?_cons_succ] at h ⊢
              exact ih tl2 n a b h

/-- On success, the pair walk returns the hop at each position with its
`ExternalID` cleared exactly when the preceding hop's account matches. -/
theorem walkFrom_ok_get (l : List (ARN × AssumeRole)) :
    ∀ (p : ARN × AssumeRole) (out : List AssumeRole), walkFrom p l = .ok out →
      ∀ (j : Nat) (a : ARN) (r : AssumeRole), l.get? j = some (a, r) →
        out.get? j = some (if prevAcc p l j = a.AccountID then { r with ExternalID := "" } else r) := by
  induction l with
  | nil => intro p out _ j a r hj; simp at hj
  | cons hd tl ih =>
      obtain ⟨a1, r1⟩ := hd
      intro p out h j a r hj
      simp only [walkFrom] at h
      by_cases hacc : p.1.AccountID = a1.AccountID
      · rw [if_pos hacc] at h
        cases hw : walkFrom (a1, { r1 with ExternalID := "" }) tl with
        | error e => rw [hw] at h; exact absurd h (by simp)
        | ok out' =>
            rw [hw] at h
            simp only [Except.ok.injEq] at h
            subst h
            match j with
            | 0 =>
                simp only [List.get?_cons_zero, Option.some.injEq, Prod.mk.injEq] at hj
                obtain ⟨ha, hr⟩ := hj
                subst ha; subst hr
                simp [prevAcc, hacc]
            | j' + 1 =>
                simp only [List.get?_cons_succ] at hj ⊢
                have hb : j' < tl.length := by
                  rcases List.get?_eq_some.mp hj with ⟨hb, _⟩
                  exact hb
                have hprev := prevAcc_cons p (a1, { r1 with ExternalID := "" }) a1 r1 tl j'
                  rfl hb
                rw [← hprev]
                exact ih (a1, { r1 with ExternalID := "" }) out' hw j' a r hj
      · rw [if_neg hacc] at h
        by_cases hemp : r1.ExternalID = ""
        · rw [if_pos hemp] at h
          exact absurd h (by simp)
        · rw [if_neg hemp] at h
          cases hw : walkFrom (a1, r1) tl with
          | error e => rw [hw] at h; exact absurd h (by simp)
          | ok out' =>
              rw [hw] at h
              simp only [Except.ok.injEq] at h
              subst h
              match j with
              | 0 =>
                  simp only [List.get?_cons_zero, Option.some.injEq, Prod.mk.injEq] at hj
                  obtain ⟨ha, hr⟩ := hj
                  subst ha; subst hr
                  simp [prevAcc, hacc]
              | j' + 1 =>
                  simp only [List.get?_cons_succ] at hj ⊢
                  have hb : j' < tl.length := by
                    rcases List.get?_eq_some.mp hj with ⟨hb, _⟩
                    exact hb
                  have hprev := prevAcc_cons p (a1, r1) a1 r1 tl j' rfl hb
                  rw [← hprev]
                  exact ih (a1, r1) out' hw j' a r hj

/-- If position `j` of the pair list is the first cross-account hop without
an external ID, the walk fails naming the preceding hop's role ARN and the
offending hop's role ARN. -/
theorem walkFrom_err (l : List (ARN × AssumeRole)) :
    ∀ (p : ARN × AssumeRole) (j : Nat) (a : ARN) (r : AssumeRole),
      l.get? j = some (a, r) →
      prevAcc p l j ≠ a.AccountID →
      r.ExternalID = "" →
      (∀ (k : Nat) (ak : ARN) (rk : AssumeRole), k < j → l.get? k = some (ak, rk) →
        prevAcc p l k ≠ ak.AccountID → rk.ExternalID ≠ "") →
      walkFrom p l = .error (.badParameter (prevARNName p l j
        ++ " cannot assume external account role " ++ r.RoleARN ++ " without an external ID")) := by
  induction l with
  | nil => intro p j a r hj; simp at hj
  | cons hd tl ih =>
      obtain ⟨a1, r1⟩ := hd
      intro p j a r hj hdiff hemp hok
      match j with
      | 0 =>
          simp only [List.get?_cons_zero, Option.some.injEq, Prod.mk.injEq] at hj
          obtain ⟨ha, hr⟩ := hj
          subst ha; subst hr
          simp only [prevAcc] at hdiff
          simp only [prevARNName]
          simp [walkFrom, if_neg hdiff, if_pos hemp]
      | j' + 1 =>
          simp only [List.get?_cons_succ] at hj
          have hb : j' < tl.length := by
            rcases List.get?_eq_some.mp hj with ⟨hb, _⟩
            exact hb
          by_cases hacc : p.1.AccountID = a1.AccountID
          · have hprevA := prevAcc_cons p (a1, { r1 with ExternalID := "" }) a1 r1 tl j' rfl hb
            have hprevN := prevARNName_cons p (a1, { r1 with ExternalID := "" }) a1 r1 tl j'
              rfl hb
            have hrec := ih (a1, { r1 with ExternalID := "" }) j' a r hj
              (by rw [hprevA]; exact hdiff) hemp ?_
            · simp only [walkFrom, if_pos hacc, hrec]
              rw [hprevN]
            · intro k ak rk hk hgk hdk
              have hbk : k < tl.length := by
                rcases List.get?_eq_some.mp hgk with ⟨hbk, _⟩
                exact hbk
              have := prevAcc_cons p (a1, { r1 with ExternalID := "" }) a1 r1 tl k rfl hbk
              exact hok (k + 1) ak rk (Nat.succ_lt_succ hk) (by simpa using hgk)
                (by rw [← this]; exact hdk)
          · by_cases hemp1 : r1.ExternalID = ""
            · exact absurd hemp1
                (hok 0 a1 r1 (Nat.succ_pos j') (by simp) (by simpa [prevAcc] using hacc))
            · have hprevA := prevAcc_cons p (a1, r1) a1 r1 tl j' rfl hb
              have hprevN := prevARNName_cons p (a1, r1) a1 r1 tl j' rfl hb
              have hrec := ih (a1, r1) j' a r hj (by rw [hprevA]; exact hdiff) hemp ?_
              · simp only [walkFrom, if_neg hacc, if_neg hemp1, hrec]
                rw [hprevN]
              · intro k ak rk hk hgk hdk
                have hbk : k < tl.length := by
                  rcases List.get?_eq_some.mp hgk with ⟨hbk, _⟩
                  exact hbk
                have := prevAcc_cons p (a1, r1) a1 r1 tl k rfl hbk
                exact hok (k + 1) ak rk (Nat.succ_lt_succ hk) (by simpa using hgk)
                  (by rw [← this]; exact hdk)

theorem filterAssumeRoles_eq_self (roles : List AssumeRole)
    (h : ∀ r ∈ roles, r.RoleARN ≠ "") :
    filterAssumeRoles roles = roles := by
  unfold filterAssumeRoles
  rw [List.filter_eq_self]
  intro a ha
  simpa using h a ha

theorem parseChainARNs_length (partition : String) :
    ∀ (l : List AssumeRole) (a : List ARN), parseChainARNs partition l = .ok a →
      a.length = l.length := by
  intro l
  induction l with
  | nil =>
      intro a h
      simp only [parseChainARNs, Except.ok.injEq] at h
      simp [← h]
  | cons r tl ih =>
      intro a h
      simp only [parseChainARNs] at h
      cases hp : ParseRoleARN r.RoleARN with
      | none => rw [hp] at h; exact absurd h (by simp)
      | some a0 =>
          simp only [hp] at h
          by_cases hpart : a0.Partition = partition
          · rw [if_pos hpart] at h
            cases hrec : parseChainARNs partition tl with
            | ok tlA =>
                rw [hrec] at h
                simp only [Except.ok.injEq] at h
                subst h
                simp [ih tlA hrec]
            | error e => rw [hrec] at h; exact absurd h (by simp)
          · rw [if_neg hpart] at h; exact absurd h (by simp)

theorem checkAndSet_shape (region : String) (r0 : AssumeRole) (rs : List AssumeRole)
    (a0 : ARN) (asTl : List ARN)
    (hfilt : filterAssumeRoles (r0 :: rs) = r0 :: rs)
    (hparse : parseChainARNs (GetPartitionFromRegion region) (r0 :: rs) = .ok (a0 :: asTl)) :
    checkAndSetAssumeRoles region (r0 :: rs) =
      match walkFrom (a0, r0) (asTl.zip rs) with
      | .ok tl => .ok (r0 :: tl)
      | .error e => .error e := by
  simp only [checkAndSetAssumeRoles, hfilt, hparse]

theorem prevAcc_of_chain (a0 : ARN) (r0 : AssumeRole) (asTl : List ARN)
    (rs : List AssumeRole) (i : Nat) (ai : ARN) (ri : AssumeRole)
    (hai : (a0 :: asTl).get? i = some ai) (hri : (r0 :: rs).get? i = some ri) :
    prevAcc (a0, r0) (asTl.zip rs) i = ai.AccountID := by
  match i with
  | 0 =>
      simp only [List.get?_cons_zero, Option.some.injEq] at hai
      simp [prevAcc, hai]
  | k + 1 =>
      simp only [List.get?_cons_succ] at hai hri
      have hz := zipGet asTl rs k ai ri hai hri
      simp only [List.get?_eq_getElem?] at hz
      simp [prevAcc, hz]

theorem prevARN_of_chain (a0 : ARN) (r0 : AssumeRole) (asTl : List ARN)
    (rs : List AssumeRole) (i : Nat) (ai : ARN) (ri : AssumeRole)
    (hai : (a0 :: asTl).get? i = some ai) (hri : (r0 :: rs).get? i = some ri) :
    prevARNName (a0, r0) (asTl.zip rs) i = ri.RoleARN := by
  match i with
  | 0 =>
      simp only [List.get?_cons_zero, Option.some.injEq] at hri
      simp [prevARNName, hri]
  | k + 1 =>
      simp only [List.get?_cons_succ] at hai hri
      have hz := zipGet asTl rs k ai ri hai hri
      simp only [List.get?_eq_getElem?] at hz
      simp [prevARNName, hz]

/-- Claim C2 (confirmed): for a filtered chain whose ARNs all parse against
the region's partition, validation treats the consecutive pair
`(hop i, hop i+1)` thus: equal accounts — the returned chain carries
`hop (i+1)` with its `ExternalID` cleared; different accounts with an empty
`ExternalID` — validation fails (when the walk reaches that pair, i.e. it
is the first such violation) with a `BadParameter` error naming both role
ARNs; different accounts with a non-empty `ExternalID` — `hop (i+1)` is
returned exactly as supplied. -/
theorem checkAndSetAssumeRoles_pairwise_externalID_policy
    (region : String) (roles : List AssumeRole) (arns : List ARN) (i : Nat)
    (ai aj : ARN) (ri rj : AssumeRole)
    (hfilt : ∀ r ∈ roles, r.RoleARN ≠ "")
    (hparse : parseChainARNs (GetPartitionFromRegion region) roles = .ok arns)
    (hai : arns.get? i = some ai) (haj : arns.get? (i + 1) = some aj)
    (hri : roles.get? i = some ri) (hrj : roles.get? (i + 1) = some rj) :
    (ai.AccountID = aj.AccountID →
      ∀ out, checkAndSetAssumeRoles region roles = .ok out →
        out.get? (i + 1) = some { rj with ExternalID := "" }) ∧
    (ai.AccountID ≠ aj.AccountID → rj.ExternalID = "" →
      (∀ (k : Nat) (ak ak1 : ARN) (rk1 : AssumeRole), k < i →
        arns.get? k = some ak → arns.get? (k + 1) = some ak1 →
        roles.get? (k + 1) = some rk1 → ak.AccountID ≠ ak1.AccountID →
        rk1.ExternalID ≠ "") →
      checkAndSetAssumeRoles region roles = .error (.badParameter (ri.RoleARN
        ++ " cannot assume external account role " ++ rj.RoleARN
        ++ " without an external ID"))) ∧
    (ai.AccountID ≠ aj.AccountID →
      ∀ out, checkAndSetAssumeRoles region roles = .ok out →
        out.get? (i + 1) = some rj) := by
  cases roles with
  | nil => simp at hri
  | cons r0 rs =>
  cases arns with
  | nil => simp at hai
  | cons a0 asTl =>
  have hshape := checkAndSet_shape region r0 rs a0 asTl
    (filterAssumeRoles_eq_self _ hfilt) hparse
  have haj' : asTl.get? i = some aj := by simpa using haj
  have hrj' : rs.get? i = some rj := by simpa using hrj
  have hlj : (asTl.zip rs).get? i = some (aj, rj) := zipGet asTl rs i aj rj haj' hrj'
  have hprevA : prevAcc (a0, r0) (asTl.zip rs) i = ai.AccountID :=
    prevAcc_of_chain a0 r0 asTl rs i ai ri hai hri
  have hprevN : prevARNName (a0, r0) (asTl.zip rs) i = ri.RoleARN :=
    prevARN_of_chain a0 r0 asTl rs i ai ri hai hri
  refine ⟨?_, ?_, ?_⟩
  · intro hacc out hout
    rw [hshape] at hout
    cases hw : walkFrom (a0, r0) (asTl.zip rs) with
    | error e => rw [hw] at hout; exact absurd hout (by simp)
    | ok tl =>
        rw [hw] at hout
        simp only [Except.ok.injEq] at hout
        subst hout
        simp only [List.get?_cons_succ]
        have hg := walkFrom_ok_get (asTl.zip rs) (a0, r0) tl hw i aj rj hlj
        rw [hprevA, if_pos hacc] at hg
        exact hg
  · intro hdiff hempty hnov
    rw [hshape]
    have herr := walkFrom_err (asTl.zip rs) (a0, r0) i aj rj hlj
      (by rw [hprevA]; exact hdiff) hempty ?_
    · rw [hprevN] at herr
      rw [herr]
    · intro k ak rk hk hgk hdk
      obtain ⟨hga, hgr⟩ := zipGetRev asTl rs k ak rk hgk
      match k, hgk, hdk with
      | 0, hgk, hdk =>
          have hprev0 : prevAcc (a0, r0) (asTl.zip rs) 0 = a0.AccountID := rfl
          rw [hprev0] at hdk
          exact hnov 0 a0 ak rk hk (by simp) (by simpa using hga) (by simpa using hgr) hdk
      | k' + 1, hgk, hdk =>
          have hbk : k' + 1 < (asTl.zip rs).length := by
            rcases List.get?_eq_some.mp hgk with ⟨hb, _⟩
            exact hb
          have hbk' : k' < (asTl.zip rs).length := Nat.lt_of_succ_lt hbk
          obtain ⟨⟨ak0, rk0⟩, hpair⟩ : ∃ q, (asTl.zip rs).get? k' = some q :=
            ⟨_, List.get?_eq_get hbk'⟩
          obtain ⟨hga0, hgr0⟩ := zipGetRev asTl rs k' ak0 rk0 hpair
          have hprevk : prevAcc (a0, r0) (asTl.zip rs) (k' + 1) = ak0.AccountID :=
            prevAcc_of_chain a0 r0 asTl rs (k' + 1) ak0 rk0 (by simpa using hga0)
              (by simpa using hgr0)
          rw [hprevk] at hdk
          exact hnov (k' + 1) ak0 ak rk hk (by simpa using hga0) (by simpa using hga)
            (by simpa using hgr) hdk
  · intro hdiff out hout
    rw [hshape] at hout
    cases hw : walkFrom (a0, r0) (asTl.zip rs) with
    | error e => rw [hw] at hout; exact absurd hout (by simp)
    | ok tl =>
        rw [hw] at hout
        simp only [Except.ok.injEq] at hout
        subst hout
        simp only [List.get?_cons_succ]
        have hg := walkFrom_ok_get (asTl.zip rs) (a0, r0) tl hw i aj rj hlj
        rw [hprevA, if_neg hdiff] at hg
        exact hg

/-- Closed check of the pair policy on a two-hop same-account chain: the
second hop's superfluous external ID is cleared in the returned chain. -/
theorem checkAndSetAssumeRoles_pairwise_externalID_policy_witness :
    (∀ r ∈ ([⟨"arn:aws:iam::111111111111:role/alpha", ""⟩,
             ⟨"arn:aws:iam::111111111111:role/beta", "x"⟩] : List AssumeRole),
      r.RoleARN ≠ "") ∧
    ([⟨"arn:aws:iam::111111111111:role/alpha", ""⟩,
      ⟨"arn:aws:iam::111111111111:role/beta", ""⟩] : List AssumeRole).get? (0 + 1) =
      some ⟨"arn:aws:iam::111111111111:role/beta", ""⟩ := by
  refine ⟨by decide, ?_⟩
  exact (checkAndSetAssumeRoles_pairwise_externalID_policy "us-east-1"
    [⟨"arn:aws:iam::111111111111:role/alpha", ""⟩,
     ⟨"arn:aws:iam::111111111111:role/beta", "x"⟩]
    [⟨"aws", "iam", "", "111111111111", "role/alpha"⟩,
     ⟨"aws", "iam", "", "111111111111", "role/beta"⟩] 0
    ⟨"aws", "iam", "", "111111111111", "role/alpha"⟩
    ⟨"aws", "iam", "", "111111111111", "role/beta"⟩
    ⟨"arn:aws:iam::111111111111:role/alpha", ""⟩
    ⟨"arn:aws:iam::111111111111:role/beta", "x"⟩
    (by decide) (by decide) (by decide) (by decide) (by decide) (by decide)).1
    (by decide)
    [⟨"arn:aws:iam::111111111111:role/alpha", ""⟩,
     ⟨"arn:aws:iam::111111111111:role/beta", ""⟩]
    (by decide)

/-- The pair walk depends on the carried-in hop only through its parsed ARN
and its role ARN string — never through its `ExternalID`. -/
theorem walkFrom_prev_ext (l : List (ARN × AssumeRole)) :
    ∀ p q : ARN × AssumeRole, p.1 = q.1 → p.2.RoleARN = q.2.RoleARN →
      walkFrom p l = walkFrom q l := by
  induction l with
  | nil => intro p q _ _; rfl
  | cons hd tl ih =>
      obtain ⟨a1, r1⟩ := hd
      intro p q h1 h2
      simp only [walkFrom]
      rw [h1, h2]

theorem checkAndSet_cons (region : String) (r0 : AssumeRole) (rest : List AssumeRole)
    (h : r0.RoleARN ≠ "") :
    checkAndSetAssumeRoles region (r0 :: rest) =
      match parseChainARNs (GetPartitionFromRegion region) (r0 :: filterAssumeRoles rest) with
      | .error e => .error e
      | .ok arns =>
          match arns with
          | [] => .ok (r0 :: filterAssumeRoles rest)
          | a0 :: asTl =>
              match walkFrom (a0, r0) (asTl.zip (filterAssumeRoles rest)) with
              | .ok tl => .ok (r0 :: tl)
              | .error e => .error e := by
  have hf : filterAssumeRoles (r0 :: rest) = r0 :: filterAssumeRoles rest := by
    simp [filterAssumeRoles, List.filter_cons, h]
  simp only [checkAndSetAssumeRoles, hf]

/-- Claim C9 (confirmed): the first hop is exempt from the external-ID pair
rule.  On success the head of the returned chain is hop 0 exactly as
supplied; the whole validation outcome is invariant under changes to hop
0's `ExternalID` (it is never required, inspected or cleared, only echoed
back); and every single-hop chain that parses and matches the region's
partition validates successfully unchanged. -/
theorem first_hop_externalID_exempt (region : String) (r0 : AssumeRole)
    (rest : List AssumeRole) (x y : String) (r : AssumeRole) (a : ARN) :
    (r0.RoleARN ≠ "" → ∀ out, checkAndSetAssumeRoles region (r0 :: rest) = .ok out →
      out.get? 0 = some r0) ∧
    (r0.RoleARN ≠ "" →
      checkAndSetAssumeRoles region ({ RoleARN := r0.RoleARN, ExternalID := x } :: rest) =
        (checkAndSetAssumeRoles region
            ({ RoleARN := r0.RoleARN, ExternalID := y } :: rest)).map
          (fun out => match out with
            | [] => []
            | _ :: tl => { RoleARN := r0.RoleARN, ExternalID := x } :: tl)) ∧
    (r.RoleARN ≠ "" → ParseRoleARN r.RoleARN = some a →
      a.Partition = GetPartitionFromRegion region →
      checkAndSetAssumeRoles region [r] = .ok [r]) := by
  refine ⟨?_, ?_, ?_⟩
  · intro h out hout
    rw [checkAndSet_cons region r0 rest h] at hout
    cases hp : parseChainARNs (GetPartitionFromRegion region) (r0 :: filterAssumeRoles rest) with
    | error e => simp only [hp] at hout; exact absurd hout (by simp)
    | ok arns =>
        simp only [hp] at hout
        cases arns with
        | nil =>
            simp only [Except.ok.injEq] at hout
            subst hout
            rfl
        | cons a0 asTl =>
            cases hw : walkFrom (a0, r0) (asTl.zip (filterAssumeRoles rest)) with
            | error e => simp only [hw] at hout; exact absurd hout (by simp)
            | ok tl =>
                simp only [hw, Except.ok.injEq] at hout
                subst hout
                rfl
  · intro h
    have hx : ({ RoleARN := r0.RoleARN, ExternalID := x } : AssumeRole).RoleARN ≠ "" := h
    have hy : ({ RoleARN := r0.RoleARN, ExternalID := y } : AssumeRole).RoleARN ≠ "" := h
    rw [checkAndSet_cons region _ rest hx, checkAndSet_cons region _ rest hy]
    have hpeq : parseChainARNs (GetPartitionFromRegion region)
        ({ RoleARN := r0.RoleARN, ExternalID := x } :: filterAssumeRoles rest) =
        parseChainARNs (GetPartitionFromRegion region)
        ({ RoleARN := r0.RoleARN, ExternalID := y } :: filterAssumeRoles rest) := by
      simp only [parseChainARNs]
    rw [hpeq]
    cases hp : parseChainARNs (GetPartitionFromRegion region)
        ({ RoleARN := r0.RoleARN, ExternalID := y } :: filterAssumeRoles rest) with
    | error e => simp only [hp]; rfl
    | ok arns =>
        cases arns with
        | nil => simp only [hp]; rfl
        | cons a0 asTl =>
            simp only [hp]
            have hw := walkFrom_prev_ext (asTl.zip (filterAssumeRoles rest))
              (a0, { RoleARN := r0.RoleARN, ExternalID := x })
              (a0, { RoleARN := r0.RoleARN, ExternalID := y }) rfl rfl
            rw [hw]
            cases hwk : walkFrom (a0, { RoleARN := r0.RoleARN, ExternalID := y })
                (asTl.zip (filterAssumeRoles rest)) with
            | ok tl => simp only [hwk]; rfl
            | error e => simp only [hwk]; rfl
  · intro h hp hpart
    rw [checkAndSet_cons region r [] h]
    simp [parseChainARNs, hp, hpart, walkFrom, filterAssumeRoles]

/-- Closed check of the first-hop exemption: a one-hop cross-partition-free
chain with an external ID validates unchanged. -/
theorem first_hop_externalID_exempt_witness :
    (("arn:aws:iam::999999999999:role/solo" : String) ≠ "") ∧
    checkAndSetAssumeRoles "us-east-1" [⟨"arn:aws:iam::999999999999:role/solo", "secret"⟩] =
      .ok [⟨"arn:aws:iam::999999999999:role/solo", "secret"⟩] := by
  refine ⟨by decide, ?_⟩
  exact (first_hop_externalID_exempt "us-east-1" ⟨"x", ""⟩ [] "" "" 
    ⟨"arn:aws:iam::999999999999:role/solo", "secret"⟩
    ⟨"aws", "iam", "", "999999999999", "role/solo"⟩).2.2 (by decide) (by decide) (by decide)

/-- An `*awssession.Session`: a handle identified by its allocation
number; reference equality of sessions is equality of these numbers. -/
structure Session where
  sid : Nat
deriving DecidableEq, Repr

/-- The AWS-facing mutable state of `cloudClients`: the `awsSessions` map
(modelled as an association list, newest binding first) and the allocation
counter for fresh session handles. -/
structure BrokerState where
  awsSessions : List (String × Session)
  nextID : Nat
deriving DecidableEq, Repr

/-- Map lookup in `awsSessions`. -/
def lookupSess : List (String × Session) → String → Option Session
  | [], _ => none
  | (k, v) :: tl, key => if key = k then some v else lookupSess tl key

/-- Outcomes of the external SDK calls: whether
`awssession.NewSessionWithOptions` succeeds for a region, whether the
`stscreds` credential probe (`cred.GetWithContext`) succeeds for a base
session and role, and whether `awssession.NewSession` on the derived config
succeeds. -/
structure AWSEnv where
  baseOK : String → Bool
  probeOK : Session → AssumeRole → Bool
  roleSessionOK : Session → AssumeRole → Bool

/-- `initAWSSession`: double-checked store of the base session for a
region.  Returns the result, the new state, and the number of
session-construction (network) calls performed. -/
def initAWSSession (env : AWSEnv) (st : BrokerState) (region : String) :
    Except CloudErr Session × BrokerState × Nat :=
  match lookupSess st.awsSessions region with
  | some s => (.ok s, st, 0)
  | none =>
      if env.baseOK region then
        (.ok ⟨st.nextID⟩,
         { awsSessions := (region, ⟨st.nextID⟩) :: st.awsSessions, nextID := st.nextID + 1 },
         1)
      else
        (.error (.upstream ("failed to create AWS session for region " ++ region)), st, 1)

/-- `getAWSSession` (private): cached read, falling through to
`initAWSSession`. -/
def getAWSSession (env : AWSEnv) (st : BrokerState) (region : String) :
    Except CloudErr Session × BrokerState × Nat :=
  match lookupSess st.awsSessions region with
  | some s => (.ok s, st, 0)
  | none => initAWSSession env st region

/-- `initAWSSessionForRole`: double-checked store of an assumed-role
session under its cache key.  The credential probe runs first; only if it
succeeds is a session constructed from the derived config and stored.  A
failed probe stores nothing and returns the wrapped error. -/
def initAWSSessionForRole (env : AWSEnv) (st : BrokerState) (cacheKey : String)
    (baseSession : Session) (role : AssumeRole) :
    Except CloudErr Session × BrokerState × Nat :=
  match lookupSess st.awsSessions cacheKey with
  | some s => (.ok s, st, 0)
  | none =>
      if env.probeOK baseSession role then
        if env.roleSessionOK baseSession role then
          (.ok ⟨st.nextID⟩,
           { awsSessions := (cacheKey, ⟨st.nextID⟩) :: st.awsSessions,
             nextID := st.nextID + 1 },
           2)
        else
          (.error (.upstream "failed to create session with assumed-role credentials"),
           st, 2)
      else
        (.error (.upstream ("credentials probe failed for assumed role " ++ role.RoleARN)),
         st, 1)

/-- `getAWSSessionForRole`: cached read under the hop's cache key, falling
through to `initAWSSessionForRole`. -/
def getAWSSessionForRole (env : AWSEnv) (st : BrokerState) (cacheKey : String)
    (baseSession : Session) (role : AssumeRole) :
    Except CloudErr Session × BrokerState × Nat :=
  match lookupSess st.awsSessions cacheKey with
  | some s => (.ok s, st, 0)
  | none => initAWSSessionForRole env st cacheKey baseSession role

/-- The assume-role loop of `GetAWSSession`: extend the key builder one hop
at a time, fetch or build the session for each prefix key, and thread the
current session along.  Also records, per completed hop, the consulted
cache key and the session obtained for it. -/
def assumeRolesLoop (env : AWSEnv) :
    BrokerState → AWSSessionCacheKeyBuilder → Session → List AssumeRole →
    Except CloudErr Session × BrokerState × Nat × List (String × Session)
  | st, _, cur, [] => (.ok cur, st, 0, [])
  | st, kb, cur, role :: tl =>
      match getAWSSessionForRole env st (kb.AddRole role).sb cur role with
      | (.ok s, st1, c) =>
          match assumeRolesLoop env st1 (kb.AddRole role) s tl with
          | (res, st2, c2, tr) => (res, st2, c + c2, ((kb.AddRole role).sb, s) :: tr)
      | (.error e, st1, c) => (.error e, st1, c, [])

/-- `cloudClients.GetAWSSession`, instrumented with the trace of
`(cache key, session)` pairs actually used — the base session under the
bare region, then one pair per assumed hop. -/
def GetAWSSessionFull (env : AWSEnv) (st : BrokerState) (region : String)
    (roles : List AssumeRole) :
    Except CloudErr Session × BrokerState × Nat × List (String × Session) :=
  match checkAndSetAssumeRoles region roles with
  | .error e => (.error e, st, 0, [])
  | .ok roles' =>
      match getAWSSession env st region with
      | (.error e, st1, c1) => (.error e, st1, c1, [])
      | (.ok base, st1, c1) =>
          match roles' with
          | [] => (.ok base, st1, c1, [(region, base)])
          | _ :: _ =>
              match assumeRolesLoop env st1 (NewAWSSessionCacheKeyBuilder region) base roles' with
              | (res, st2, c2, tr) => (res, st2, c1 + c2, (region, base) :: tr)

/-- `cloudClients.GetAWSSession`: result, final state, and count of
session-construction (network) calls. -/
def GetAWSSession (env : AWSEnv) (st : BrokerState) (region : String)
    (roles : List AssumeRole) : Except CloudErr Session × BrokerState × Nat :=
  match GetAWSSessionFull env st region roles with
  | (res, st', c, _) => (res, st', c)

example :
    GetAWSSession ⟨fun _ => true, fun _ _ => true, fun _ _ => true⟩ ⟨[], 0⟩ "us-east-1"
      [⟨"arn:aws:iam::111111111111:role/alpha", ""⟩] =
    (.ok ⟨1⟩,
     ⟨[("us-east-1:Role[0]:ARN[arn:aws:iam::111111111111:role/alpha]:ExternalID[]", ⟨1⟩),
       ("us-east-1", ⟨0⟩)], 2⟩, 3) := by decide

/-- Claim C5 (confirmed): with no roles, or only empty-ARN roles, the
chain filters to empty, validation accepts without inspecting anything,
and `GetAWSSession` coincides with the plain base-session path for the
region — no assume-role step, no extra construction call. -/
theorem getAWSSession_empty_chain_returns_base (env : AWSEnv) (st : BrokerState)
    (region : String) (roles : List AssumeRole)
    (h : ∀ r ∈ roles, r.RoleARN = "") :
    filterAssumeRoles roles = [] ∧
    checkAndSetAssumeRoles region roles = .ok [] ∧
    GetAWSSession env st region roles = getAWSSession env st region := by
  have hf : filterAssumeRoles roles = [] := by
    unfold filterAssumeRoles
    rw [List.filter_eq_nil_iff]
    intro a ha
    simp [h a ha]
  have hval : checkAndSetAssumeRoles region roles = .ok [] := by
    simp only [checkAndSetAssumeRoles, hf]
  refine ⟨hf, hval, ?_⟩
  unfold GetAWSSession GetAWSSessionFull
  simp only [hval]
  rcases hbase : getAWSSession env st region with ⟨res, st1, c1⟩
  cases res with
  | error e => rfl
  | ok base => rfl

/-- Closed check: a chain of empty-ARN hops takes exactly the base-session
path. -/
theorem getAWSSession_empty_chain_returns_base_witness :
    (∀ r ∈ ([⟨"", ""⟩, ⟨"", "x"⟩] : List AssumeRole), r.RoleARN = "") ∧
    GetAWSSession ⟨fun _ => true, fun _ _ => true, fun _ _ => true⟩ ⟨[], 0⟩ "us-east-1"
        [⟨"", ""⟩, ⟨"", "x"⟩] =
      getAWSSession ⟨fun _ => true, fun _ _ => true, fun _ _ => true⟩ ⟨[], 0⟩ "us-east-1" := by
  refine ⟨by decide, ?_⟩
  exact (getAWSSession_empty_chain_returns_base _ _ "us-east-1" _ (by decide)).2.2

/-- Claim C3 (confirmed): errors are never cached.  A validation failure
makes `GetAWSSession` return that error with the state untouched and zero
construction calls (no base session is created or stored); a failed
credential probe inside `initAWSSessionForRole` returns the wrapped error
with the state untouched, so nothing is stored under the hop's key and an
identical retry starts from scratch. -/
theorem errors_never_cached (env : AWSEnv) (st : BrokerState) (region : String)
    (roles : List AssumeRole) (e : CloudErr) (key : String) (base : Session)
    (role : AssumeRole) :
    (checkAndSetAssumeRoles region roles = .error e →
      GetAWSSession env st region roles = (.error e, st, 0)) ∧
    (lookupSess st.awsSessions key = none → env.probeOK base role = false →
      initAWSSessionForRole env st key base role =
        (.error (.upstream ("credentials probe failed for assumed role " ++ role.RoleARN)),
         st, 1)) := by
  constructor
  · intro hval
    unfold GetAWSSession GetAWSSessionFull
    simp only [hval]
  · intro hlook hprobe
    unfold initAWSSessionForRole
    simp only [hlook, hprobe]
    rfl

/-- Closed check: a malformed chain is rejected with state untouched, and a
failing probe stores nothing. -/
theorem errors_never_cached_witness :
    checkAndSetAssumeRoles "us-east-1" [⟨"notanarn", ""⟩] =
      .error (.badParameter "failed to parse role ARN notanarn") ∧
    GetAWSSession ⟨fun _ => true, fun _ _ => true, fun _ _ => true⟩ ⟨[], 7⟩ "us-east-1"
        [⟨"notanarn", ""⟩] =
      (.error (.badParameter "failed to parse role ARN notanarn"), ⟨[], 7⟩, 0) ∧
    initAWSSessionForRole ⟨fun _ => true, fun _ _ => false, fun _ _ => true⟩ ⟨[], 7⟩
        "k" ⟨0⟩ ⟨"arn:aws:iam::111111111111:role/alpha", ""⟩ =
      (.error (.upstream
        ("credentials probe failed for assumed role arn:aws:iam::111111111111:role/alpha")),
       ⟨[], 7⟩, 1) := by
  refine ⟨by decide, ?_, ?_⟩
  · exact (errors_never_cached _ ⟨[], 7⟩ "us-east-1" [⟨"notanarn", ""⟩] _ "k" ⟨0⟩
      ⟨"", ""⟩).1 (by decide)
  · exact (errors_never_cached ⟨fun _ => true, fun _ _ => false, fun _ _ => true⟩ ⟨[], 7⟩
      "us-east-1" [] (.notFound "") "k" ⟨0⟩
      ⟨"arn:aws:iam::111111111111:role/alpha", ""⟩).2 (by decide) (by decide)

/-- The cache only grows: every binding visible in the first state is
visible, with the same session, in the second. -/
def sessExt (st st' : BrokerState) : Prop :=
  ∀ k s, lookupSess st.awsSessions k = some s → lookupSess st'.awsSessions k = some s

theorem sessExt_refl (st : BrokerState) : sessExt st st := fun _ _ h => h

theorem sessExt_trans {a b c : BrokerState} (h1 : sessExt a b) (h2 : sessExt b c) :
    sessExt a c := fun k s h => h2 k s (h1 k s h)

theorem sessExt_store (st : BrokerState) (key : String) (s : Session) (n : Nat)
    (h : lookupSess st.awsSessions key = none) :
    sessExt st ⟨(key, s) :: st.awsSessions, n⟩ := by
  intro k v hk
  simp only [lookupSess]
  by_cases hkk : k = key
  · subst hkk
    rw [h] at hk
    exact absurd hk (by simp)
  · rw [if_neg hkk]
    exact hk

theorem getAWSSession_ok (env : AWSEnv) (st : BrokerState) (region : String)
    (b : Session) (st1 : BrokerState) (c : Nat)
    (h : getAWSSession env st region = (.ok b, st1, c)) :
    sessExt st st1 ∧ lookupSess st1.awsSessions region = some b := by
  unfold getAWSSession at h
  cases hl : lookupSess st.awsSessions region with
  | some s =>
      simp only [hl, Prod.mk.injEq, Except.ok.injEq] at h
      obtain ⟨h1, h2, _⟩ := h
      subst h1; subst h2
      exact ⟨sessExt_refl st, hl⟩
  | none =>
      simp only [hl] at h
      unfold initAWSSession at h
      simp only [hl] at h
      by_cases hb : env.baseOK region
      · rw [if_pos hb] at h
        simp only [Prod.mk.injEq, Except.ok.injEq] at h
        obtain ⟨h1, h2, _⟩ := h
        subst h1
        rw [← h2]
        refine ⟨sessExt_store st region ⟨st.nextID⟩ (st.nextID + 1) hl, ?_⟩
        simp [lookupSess]
      · rw [if_neg hb] at h
        simp only [Prod.mk.injEq] at h
        exact absurd h.1 (by simp)

theorem getAWSSessionForRole_ok (env : AWSEnv) (st : BrokerState) (key : String)
    (base : Session) (role : AssumeRole) (s : Session) (st1 : BrokerState) (c : Nat)
    (h : getAWSSessionForRole env st key base role = (.ok s, st1, c)) :
    sessExt st st1 ∧ lookupSess st1.awsSessions key = some s := by
  unfold getAWSSessionForRole at h
  cases hl : lookupSess st.awsSessions key with
  | some s0 =>
      simp only [hl, Prod.mk.injEq, Except.ok.injEq] at h
      obtain ⟨h1, h2, _⟩ := h
      subst h1; subst h2
      exact ⟨sessExt_refl st, hl⟩
  | none =>
      simp only [hl] at h
      unfold initAWSSessionForRole at h
      simp only [hl] at h
      by_cases hp : env.probeOK base role
      · rw [if_pos hp] at h
        by_cases hr : env.roleSessionOK base role
        · rw [if_pos hr] at h
          simp only [Prod.mk.injEq, Except.ok.injEq] at h
          obtain ⟨h1, h2, _⟩ := h
          subst h1
          rw [← h2]
          refine ⟨sessExt_store st key ⟨st.nextID⟩ (st.nextID + 1) hl, ?_⟩
          simp [lookupSess]
        · rw [if_neg hr] at h
          simp only [Prod.mk.injEq] at h
          exact absurd h.1 (by simp)
      · rw [if_neg hp] at h
        simp only [Prod.mk.injEq] at h
        exact absurd h.1 (by simp)

theorem getAWSSessionForRole_st (env : AWSEnv) (st : BrokerState) (key : String)
    (base : Session) (role : AssumeRole) :
    sessExt st (getAWSSessionForRole env st key base role).2.1 := by
  rcases hr : getAWSSessionForRole env st key base role with ⟨res, st1, c⟩
  cases res with
  | ok s => exact (getAWSSessionForRole_ok env st key base role s st1 c hr).1
  | error e =>
      unfold getAWSSessionForRole at hr
      cases hl : lookupSess st.awsSessions key with
      | some s0 => simp only [hl, Prod.mk.injEq] at hr; exact absurd hr.1 (by simp)
      | none =>
          simp only [hl] at hr
          unfold initAWSSessionForRole at hr
          simp only [hl] at hr
          by_cases hp : env.probeOK base role
          · rw [if_pos hp] at hr
            by_cases hro : env.roleSessionOK base role
            · rw [if_pos hro] at hr
              simp only [Prod.mk.injEq] at hr
              exact absurd hr.1 (by simp)
            · rw [if_neg hro] at hr
              simp only [Prod.mk.injEq] at hr
              obtain ⟨_, h2, _⟩ := hr
              rw [← h2]
              exact sessExt_refl st
          · rw [if_neg hp] at hr
            simp only [Prod.mk.injEq] at hr
            obtain ⟨_, h2, _⟩ := hr
            rw [← h2]
            exact sessExt_refl st

theorem assumeRolesLoop_ext (env : AWSEnv) :
    ∀ (roles : List AssumeRole) (st : BrokerState) (kb : AWSSessionCacheKeyBuilder)
      (cur : Session), sessExt st (assumeRolesLoop env st kb cur roles).2.1 := by
  intro roles
  induction roles with
  | nil => intro st kb cur; exact sessExt_refl st
  | cons role tl ih =>
      intro st kb cur
      simp only [assumeRolesLoop]
      rcases hstep : getAWSSessionForRole env st (kb.AddRole role).sb cur role with ⟨res1, st1, c1⟩
      have hext1 : sessExt st st1 := by
        have := getAWSSessionForRole_st env st (kb.AddRole role).sb cur role
        rw [hstep] at this
        exact this
      cases res1 with
      | error e => exact hext1
      | ok s1 =>
          rcases hrec : assumeRolesLoop env st1 (kb.AddRole role) s1 tl with ⟨res2, st2, c2, tr2⟩
          have hext2 : sessExt st1 st2 := by
            have := ih st1 (kb.AddRole role) s1
            rw [hrec] at this
            exact this
          simp only [hrec]
          exact sessExt_trans hext1 hext2

theorem assumeRolesLoop_replay (env : AWSEnv) :
    ∀ (roles : List AssumeRole) (st : BrokerState) (kb : AWSSessionCacheKeyBuilder)
      (cur s : Session) (st2 : BrokerState) (c : Nat) (tr : List (String × Session)),
      assumeRolesLoop env st kb cur roles = (.ok s, st2, c, tr) →
      assumeRolesLoop env st2 kb cur roles = (.ok s, st2, 0, tr) := by
  intro roles
  induction roles with
  | nil =>
      intro st kb cur s st2 c tr h
      simp only [assumeRolesLoop, Prod.mk.injEq, Except.ok.injEq] at h
      obtain ⟨h1, h2, _, h4⟩ := h
      subst h1; subst h2; subst h4
      rfl
  | cons role tl ih =>
      intro st kb cur s st2 c tr h
      simp only [assumeRolesLoop] at h
      rcases hstep : getAWSSessionForRole env st (kb.AddRole role).sb cur role with
        ⟨res1, st1, c1⟩
      simp only [hstep] at h
      cases res1 with
      | error e => simp only [Prod.mk.injEq] at h; exact absurd h.1 (by simp)
      | ok s1 =>
          rcases hrec : assumeRolesLoop env st1 (kb.AddRole role) s1 tl with
            ⟨res2, st2', c2, tr2⟩
          simp only [hrec, Prod.mk.injEq] at h
          obtain ⟨h1, h2, _, h4⟩ := h
          subst h1; subst h2; subst h4
          obtain ⟨hext1, hcache⟩ :=
            getAWSSessionForRole_ok env st (kb.AddRole role).sb cur role s1 st1 c1 hstep
          have hext2 : sessExt st1 st2' := by
            have := assumeRolesLoop_ext env tl st1 (kb.AddRole role) s1
            rw [hrec] at this
            exact this
          have hkey : lookupSess st2'.awsSessions (kb.AddRole role).sb = some s1 :=
            hext2 _ _ hcache
          have hstep2 : getAWSSessionForRole env st2' (kb.AddRole role).sb cur role =
              (.ok s1, st2', 0) := by
            unfold getAWSSessionForRole
            simp only [hkey]
          have hrec2 := ih st1 (kb.AddRole role) s1 s st2' c2 tr2 hrec
          simp only [assumeRolesLoop, hstep2, hrec2]

/-- Claim C4 (confirmed): idempotent cache hit.  If a call to
`GetAWSSession` (instrumented with its key/session trace) succeeds, an
identical sequential call from the resulting state returns the same
session, leaves the state unchanged, performs zero session-construction
calls, and consults exactly the same cache keys obtaining exactly the same
session handle — base and every hop — from the populated cache. -/
theorem getAWSSession_idempotent_cache_hit (env : AWSEnv) (st : BrokerState)
    (region : String) (roles : List AssumeRole) (s : Session) (st' : BrokerState)
    (n : Nat) (tr : List (String × Session))
    (h : GetAWSSessionFull env st region roles = (.ok s, st', n, tr)) :
    GetAWSSessionFull env st' region roles = (.ok s, st', 0, tr) := by
  unfold GetAWSSessionFull at h ⊢
  cases hval : checkAndSetAssumeRoles region roles with
  | error e => simp only [hval, Prod.mk.injEq] at h; exact absurd h.1 (by simp)
  | ok roles' =>
      simp only [hval] at h ⊢
      rcases hbase : getAWSSession env st region with ⟨res1, st1, c1⟩
      simp only [hbase] at h
      cases res1 with
      | error e => simp only [Prod.mk.injEq] at h; exact absurd h.1 (by simp)
      | ok base =>
          obtain ⟨hext1, hcached⟩ := getAWSSession_ok env st region base st1 c1 hbase
          cases roles' with
          | nil =>
              simp only [Prod.mk.injEq, Except.ok.injEq] at h
              obtain ⟨h1, h2, _, h4⟩ := h
              subst h1; subst h2; subst h4
              have hbase2 : getAWSSession env st1 region = (.ok base, st1, 0) := by
                unfold getAWSSession
                simp only [hcached]
              simp only [hbase2]
          | cons r1 rls =>
              rcases hloop : assumeRolesLoop env st1 (NewAWSSessionCacheKeyBuilder region)
                  base (r1 :: rls) with ⟨res2, st2, c2, tr2⟩
              simp only [hloop, Prod.mk.injEq] at h
              obtain ⟨h1, h2, _, h4⟩ := h
              subst h1; subst h2; subst h4
              have hext2 : sessExt st1 st2 := by
                have := assumeRolesLoop_ext env (r1 :: rls) st1
                  (NewAWSSessionCacheKeyBuilder region) base
                rw [hloop] at this
                exact this
              have hcach2 : lookupSess st2.awsSessions region = some base :=
                hext2 _ _ hcached
              have hbase2 : getAWSSession env st2 region = (.ok base, st2, 0) := by
                unfold getAWSSession
                simp only [hcach2]
              have hreplay := assumeRolesLoop_replay env (r1 :: rls) st1
                (NewAWSSessionCacheKeyBuilder region) base s st2 c2 tr2 hloop
              simp only [hbase2, hreplay]

/-- Closed check of the idempotent cache hit on a concrete one-hop chain:
three construction calls the first time, zero the second time, identical
trace. -/
theorem getAWSSession_idempotent_cache_hit_witness :
    GetAWSSessionFull ⟨fun _ => true, fun _ _ => true, fun _ _ => true⟩ ⟨[], 0⟩ "us-east-1"
        [⟨"arn:aws:iam::111111111111:role/alpha", ""⟩] =
      (.ok ⟨1⟩,
       ⟨[("us-east-1:Role[0]:ARN[arn:aws:iam::111111111111:role/alpha]:ExternalID[]", ⟨1⟩),
         ("us-east-1", ⟨0⟩)], 2⟩, 3,
       [("us-east-1", ⟨0⟩),
        ("us-east-1:Role[0]:ARN[arn:aws:iam::111111111111:role/alpha]:ExternalID[]", ⟨1⟩)]) ∧
    GetAWSSessionFull ⟨fun _ => true, fun _ _ => true, fun _ _ => true⟩
        ⟨[("us-east-1:Role[0]:ARN[arn:aws:iam::111111111111:role/alpha]:ExternalID[]", ⟨1⟩),
          ("us-east-1", ⟨0⟩)], 2⟩ "us-east-1"
        [⟨"arn:aws:iam::111111111111:role/alpha", ""⟩] =
      (.ok ⟨1⟩,
       ⟨[("us-east-1:Role[0]:ARN[arn:aws:iam::111111111111:role/alpha]:ExternalID[]", ⟨1⟩),
         ("us-east-1", ⟨0⟩)], 2⟩, 0,
       [("us-east-1", ⟨0⟩),
        ("us-east-1:Role[0]:ARN[arn:aws:iam::111111111111:role/alpha]:ExternalID[]", ⟨1⟩)]) := by
  refine ⟨by decide, ?_⟩
  exact getAWSSession_idempotent_cache_hit _ ⟨[], 0⟩ "us-east-1"
    [⟨"arn:aws:iam::111111111111:role/alpha", ""⟩] ⟨1⟩ _ 3 _ (by decide)

theorem assumeRolesLoop_trace_keys (env : AWSEnv) :
    ∀ (roles : List AssumeRole) (st : BrokerState) (kb : AWSSessionCacheKeyBuilder)
      (cur s : Session) (st2 : BrokerState) (c : Nat) (tr : List (String × Session)),
      assumeRolesLoop env st kb cur roles = (.ok s, st2, c, tr) →
      tr.map Prod.fst = prefixKeys kb roles := by
  intro roles
  induction roles with
  | nil =>
      intro st kb cur s st2 c tr h
      simp only [assumeRolesLoop, Prod.mk.injEq] at h
      obtain ⟨_, _, _, h4⟩ := h
      subst h4
      rfl
  | cons role tl ih =>
      intro st kb cur s st2 c tr h
      simp only [assumeRolesLoop] at h
      rcases hstep : getAWSSessionForRole env st (kb.AddRole role).sb cur role with
        ⟨res1, st1, c1⟩
      simp only [hstep] at h
      cases res1 with
      | error e => simp only [Prod.mk.injEq] at h; exact absurd h.1 (by simp)
      | ok s1 =>
          rcases hrec : assumeRolesLoop env st1 (kb.AddRole role) s1 tl with
            ⟨res2, st2', c2, tr2⟩
          simp only [hrec, Prod.mk.injEq] at h
          obtain ⟨hres, _, _, h4⟩ := h
          subst h4
          simp only [List.map_cons, prefixKeys]
          rw [ih st1 (kb.AddRole role) s1 s st2' c2 tr2 (by rw [hrec, hres])]

theorem prefixKeys_last (tl : List AssumeRole) :
    ∀ (kb : AWSSessionCacheKeyBuilder) (r : AssumeRole),
      (prefixKeys kb (r :: tl)).getLast? =
        some (((r :: tl).foldl AWSSessionCacheKeyBuilder.AddRole kb).sb) := by
  induction tl with
  | nil => intro kb r; rfl
  | cons r2 tl2 ih =>
      intro kb r
      show ((kb.AddRole r).sb :: prefixKeys (kb.AddRole r) (r2 :: tl2)).getLast? = _
      rw [show prefixKeys (kb.AddRole r) (r2 :: tl2) =
        ((kb.AddRole r).AddRole r2).sb :: prefixKeys ((kb.AddRole r).AddRole r2) tl2 from rfl]
      rw [List.getLast?_cons_cons]
      rw [show ((kb.AddRole r).AddRole r2).sb :: prefixKeys ((kb.AddRole r).AddRole r2) tl2 =
        prefixKeys (kb.AddRole r) (r2 :: tl2) from rfl]
      exact ih (kb.AddRole r) r2

/-- `TestCloudClients`: the test double.  It keeps no cache; it holds
pre-seeded fixtures keyed by full-chain cache keys. -/
structure TestCloudClients where
  RequireRoles : Bool
  AWSAssumeRoleSessions : List (String × Session)
deriving DecidableEq, Repr

/-- The double's base session (`awssession.NewSession` over fixed fake
static credentials): a handle independent of any broker state. -/
def testAWSSession (_region : String) : Except CloudErr Session := .ok ⟨0⟩

/-- `TestCloudClients.GetAWSSession`: same validation as the real broker,
then a fixture lookup under the full-chain key instead of network calls. -/
def TestCloudClients.GetAWSSession (c : TestCloudClients) (region : String)
    (roles : List AssumeRole) : Except CloudErr Session :=
  match checkAndSetAssumeRoles region roles with
  | .error e => .error e
  | .ok roles' =>
      match roles' with
      | [] =>
          if c.RequireRoles then .error (.badParameter "test cloud clients requires roles")
          else testAWSSession region
      | _ :: _ =>
          match lookupSess c.AWSAssumeRoleSessions (chainCacheKey region roles') with
          | some s => .ok s
          | none => .error (.notFound ("AWSSession " ++ chainCacheKey region roles'
              ++ " not found in TestCloudClients"))

/-- Claim C6 as stated is false: here chain validation accepts a one-hop
chain, yet the test double rejects it (with `NotFound`) because no fixture
is seeded under its key — so the double does not reject "exactly when"
validation rejects. -/
theorem testCloudClients_rejects_where_validation_accepts :
    checkAndSetAssumeRoles "us-east-1" [⟨"arn:aws:iam::123456789012:role/alpha", ""⟩] =
      .ok [⟨"arn:aws:iam::123456789012:role/alpha", ""⟩] ∧
    TestCloudClients.GetAWSSession ⟨false, []⟩ "us-east-1"
        [⟨"arn:aws:iam::123456789012:role/alpha", ""⟩] =
      .error (.notFound ("AWSSession us-east-1:Role[0]:ARN[arn:aws:iam::123456789012:role/alpha]:ExternalID[] not found in TestCloudClients")) := by
  exact ⟨by decide, by decide⟩

/-- Claim C6 (amended): the double propagates exactly the validation errors
of the shared `checkAndSetAssumeRoles` (the real broker returns the same
error); for accepted non-empty chains its whole behaviour is a fixture
lookup under the full-chain cache key — `NotFound` when unseeded — and that
key is exactly the last cache key a successful real `GetAWSSession` run
consults for the same input. -/
theorem testCloudClients_validation_and_key_equivalence
    (c : TestCloudClients) (region : String) (roles roles' : List AssumeRole)
    (e : CloudErr) (env : AWSEnv) (st : BrokerState) :
    (checkAndSetAssumeRoles region roles = .error e →
      TestCloudClients.GetAWSSession c region roles = .error e ∧
      GetAWSSession env st region roles = (.error e, st, 0)) ∧
    (checkAndSetAssumeRoles region roles = .ok roles' → roles' ≠ [] →
      TestCloudClients.GetAWSSession c region roles =
        (match lookupSess c.AWSAssumeRoleSessions (chainCacheKey region roles') with
         | some s => .ok s
         | none => .error (.notFound ("AWSSession " ++ chainCacheKey region roles'
             ++ " not found in TestCloudClients")))) ∧
    (∀ (s : Session) (st' : BrokerState) (n : Nat) (tr : List (String × Session)),
      checkAndSetAssumeRoles region roles = .ok roles' →
      GetAWSSessionFull env st region roles = (.ok s, st', n, tr) → roles' ≠ [] →
      tr.map Prod.fst = region :: prefixKeys (NewAWSSessionCacheKeyBuilder region) roles' ∧
      (prefixKeys (NewAWSSessionCacheKeyBuilder region) roles').getLast? =
        some (chainCacheKey region roles')) := by
  refine ⟨?_, ?_, ?_⟩
  · intro hval
    constructor
    · simp only [TestCloudClients.GetAWSSession, hval]
    · unfold GetAWSSession GetAWSSessionFull
      simp only [hval]
  · intro hval hne
    simp only [TestCloudClients.GetAWSSession, hval]
    cases roles' with
    | nil => exact absurd rfl hne
    | cons rr rest => rfl
  · intro s st' n tr hval h hne
    cases roles' with
    | nil => exact absurd rfl hne
    | cons rr rest =>
        unfold GetAWSSessionFull at h
        simp only [hval] at h
        rcases hbase : getAWSSession env st region with ⟨res1, st1, c1⟩
        simp only [hbase] at h
        cases res1 with
        | error e0 => simp only [Prod.mk.injEq] at h; exact absurd h.1 (by simp)
        | ok base =>
            rcases hloop : assumeRolesLoop env st1 (NewAWSSessionCacheKeyBuilder region)
                base (rr :: rest) with ⟨res2, st2, c2, tr2⟩
            simp only [hloop, Prod.mk.injEq] at h
            obtain ⟨h1, _, _, h4⟩ := h
            subst h4
            constructor
            · simp only [List.map_cons]
              rw [assumeRolesLoop_trace_keys env (rr :: rest) st1
                (NewAWSSessionCacheKeyBuilder region) base s st2 c2 tr2 (by rw [hloop, h1])]
            · rw [prefixKeys_last rest (NewAWSSessionCacheKeyBuilder region) rr]
              rfl

/-- Closed check of the amended C6: with a fixture seeded under the
full-chain key, the double returns exactly that fixture. -/
theorem testCloudClients_validation_and_key_equivalence_witness :
    checkAndSetAssumeRoles "us-east-1" [⟨"arn:aws:iam::123456789012:role/alpha", "xid"⟩] =
      .ok [⟨"arn:aws:iam::123456789012:role/alpha", "xid"⟩] ∧
    TestCloudClients.GetAWSSession
        ⟨false, [("us-east-1:Role[0]:ARN[arn:aws:iam::123456789012:role/alpha]:ExternalID[xid]",
          ⟨42⟩)]⟩
        "us-east-1" [⟨"arn:aws:iam::123456789012:role/alpha", "xid"⟩] = .ok ⟨42⟩ := by
  refine ⟨by decide, ?_⟩
  have h := (testCloudClients_validation_and_key_equivalence
    ⟨false, [("us-east-1:Role[0]:ARN[arn:aws:iam::123456789012:role/alpha]:ExternalID[xid]",
      ⟨42⟩)]⟩
    "us-east-1" [⟨"arn:aws:iam::123456789012:role/alpha", "xid"⟩]
    [⟨"arn:aws:iam::123456789012:role/alpha", "xid"⟩] (.notFound "")
    ⟨fun _ => true, fun _ _ => true, fun _ _ => true⟩ ⟨[], 0⟩).2.1 (by decide) (by decide)
  rw [h]
  decide

/-- The GCP IAM client: the one cached client holding an OS resource; its
`Close` outcome is carried on the handle. -/
structure GCPIAMClient where
  cid : Nat
  closeErr : Option CloudErr
deriving DecidableEq, Repr

/-- The full cached-field state of `cloudClients`, each client an numbered
handle (clients other than the GCP IAM one carry no close behaviour). -/
structure CloudClientsState where
  awsSessions : List (String × Session)
  gcpIAM : Option GCPIAMClient
  gcpSQLAdmin : Option Nat
  instanceMetadata : Option Nat
  gcpGKE : Option Nat
  azureCredential : Option Nat
  azureMySQLClients : List (String × Nat)
  azurePostgresClients : List (String × Nat)
  azureSubscriptionsClient : Option Nat
  azureRedisClients : List (String × Nat)
  azureRedisEnterpriseClients : List (String × Nat)
  azureKubernetesClient : List (String × Nat)
  azureVirtualMachinesClients : List (String × Nat)
  azureSQLServerClients : List (String × Nat)
  azureManagedSQLServerClients : List (String × Nat)
  azureMySQLFlexServersClients : List (String × Nat)
  azurePostgresFlexServersClients : List (String × Nat)
  azureRunCommandClients : List (String × Nat)
deriving DecidableEq, Repr

/-- `cloudClients.Close`: release the GCP IAM client if present (keeping
its close error), clear the reference, touch nothing else.  The third
component lists the ids of clients actually released by this call. -/
def Close (st : CloudClientsState) : Except CloudErr Unit × CloudClientsState × List Nat :=
  match st.gcpIAM with
  | none => (.ok (), st, [])
  | some cl =>
      ((match cl.closeErr with
        | none => .ok ()
        | some e => .error e),
       { st with gcpIAM := none }, [cl.cid])

/-- Claim C7 (confirmed): `Close` is idempotent and frame-preserving.  The
first call releases exactly the cached GCP IAM client (if any), returns its
close error, and clears the reference; a second `Close` releases nothing
and returns success; every other cached field — the AWS session map, the
GCP SQL/GKE clients, the instance-metadata client, the Azure credential and
every Azure client cache — is left untouched, and no session is ever
released. -/
theorem close_idempotent_frame (st : CloudClientsState) :
    (Close st).2.1.gcpIAM = none ∧
    (Close st).2.2 = (match st.gcpIAM with | some cl => [cl.cid] | none => []) ∧
    (Close st).1 = (match st.gcpIAM with
      | some cl => (match cl.closeErr with | none => .ok () | some e => .error e)
      | none => .ok ()) ∧
    Close (Close st).2.1 = (.ok (), (Close st).2.1, []) ∧
    (Close st).2.1.awsSessions = st.awsSessions ∧
    (Close st).2.1.gcpSQLAdmin = st.gcpSQLAdmin ∧
    (Close st).2.1.instanceMetadata = st.instanceMetadata ∧
    (Close st).2.1.gcpGKE = st.gcpGKE ∧
    (Close st).2.1.azureCredential = st.azureCredential ∧
    (Close st).2.1.azureMySQLClients = st.azureMySQLClients ∧
    (Close st).2.1.azurePostgresClients = st.azurePostgresClients ∧
    (Close st).2.1.azureSubscriptionsClient = st.azureSubscriptionsClient ∧
    (Close st).2.1.azureRedisClients = st.azureRedisClients ∧
    (Close st).2.1.azureRedisEnterpriseClients = st.azureRedisEnterpriseClients ∧
    (Close st).2.1.azureKubernetesClient = st.azureKubernetesClient ∧
    (Close st).2.1.azureVirtualMachinesClients = st.azureVirtualMachinesClients ∧
    (Close st).2.1.azureSQLServerClients = st.azureSQLServerClients ∧
    (Close st).2.1.azureManagedSQLServerClients = st.azureManagedSQLServerClients ∧
    (Close st).2.1.azureMySQLFlexServersClients = st.azureMySQLFlexServersClients ∧
    (Close st).2.1.azurePostgresFlexServersClients = st.azurePostgresFlexServersClients ∧
    (Close st).2.1.azureRunCommandClients = st.azureRunCommandClients := by
  cases hcl : st.gcpIAM with
  | none => simp [Close, hcl]
  | some cl => simp [Close, hcl]

/-- `CredentialsGetter` values: Go holds these behind an interface; the
default one is `credentialsGettter` and tests inject others. -/
inductive CredentialsGetter where
  | defaultGetter : CredentialsGetter
  | custom : Nat → CredentialsGetter
deriving DecidableEq, Repr

/-- `GetCredentialsRequest`: provider handle, expiry instant (opaque
ticks), session name, role ARN, external ID. -/
structure GetCredentialsRequest where
  Provider : Nat
  Expiry : Nat
  SessionName : String
  RoleARN : String
  ExternalID : String
deriving DecidableEq, Repr

/-- The `stscreds.AssumeRoleProvider` configuration set up by the default
getter's options closure. -/
structure AssumeRoleProvider where
  RoleSessionName : String
  Expiry : Nat
  ExternalID : Option String
deriving DecidableEq, Repr

/-- The `*credentials.Credentials` the default getter builds via
`stscreds.NewCredentials(provider, roleARN, options)`. -/
structure STSCredentials where
  Provider : Nat
  RoleARN : String
  AssumeRoleOptions : AssumeRoleProvider
deriving DecidableEq, Repr

/-- `credentialsGettter.Get`: issue the delegated-credential acquisition,
setting `ExternalID` on the provider only when the request carries a
non-empty one. -/
def credentialsGettterGet (request : GetCredentialsRequest) : STSCredentials :=
  { Provider := request.Provider
    RoleARN := request.RoleARN
    AssumeRoleOptions :=
      { RoleSessionName := request.SessionName
        Expiry := request.Expiry
        ExternalID := if request.ExternalID ≠ "" then some request.ExternalID else none } }

/-- `time.Minute` in nanoseconds (`time.Duration` is an integer
nanosecond count). -/
def timeMinute : Int := 60000000000

/-- `CachedCredentialsGetterConfig`. -/
structure CachedCredentialsGetterConfig where
  Getter : Option CredentialsGetter
  CacheTTL : Int
deriving DecidableEq, Repr

/-- `CachedCredentialsGetterConfig.SetDefaults`: a nil getter becomes the
default getter; a zero or negative TTL becomes one minute. -/
def CachedCredentialsGetterConfig.SetDefaults (c : CachedCredentialsGetterConfig) :
    CachedCredentialsGetterConfig :=
  let c1 := if c.Getter = none then { c with Getter := some .defaultGetter } else c
  if c1.CacheTTL ≤ 0 then { c1 with CacheTTL := timeMinute } else c1

/-- Modelled from the spec: the TTL-memoizing cache utility
(`utils.FnCache`, whose source is not part of this tree) — "a TTL-based
memoizing cache keyed by the full request value"; it only records the
configured TTL here, and construction needs a positive TTL. -/
structure FnCache where
  TTL : Int
deriving DecidableEq, Repr

/-- Modelled from the spec: `utils.NewFnCache`. -/
def NewFnCache (ttl : Int) : Except CloudErr FnCache :=
  if ttl ≤ 0 then .error (.badParameter "missing TTL parameter") else .ok ⟨ttl⟩

/-- `cachedCredentialsGetter`: configuration plus its TTL cache. -/
structure cachedCredentialsGetter where
  config : CachedCredentialsGetterConfig
  cache : FnCache
deriving DecidableEq, Repr

/-- `NewCachedCredentialsGetter`: apply defaults, then build the TTL cache
from the configured TTL. -/
def NewCachedCredentialsGetter (config : CachedCredentialsGetterConfig) :
    Except CloudErr cachedCredentialsGetter :=
  match NewFnCache config.SetDefaults.CacheTTL with
  | .error e => .error e
  | .ok cache => .ok { config := config.SetDefaults, cache := cache }

/-- Claim C8 (confirmed): constructing with a nil getter installs the
default getter; a zero-or-negative TTL becomes exactly one minute (in the
config and in the cache); construction then succeeds; and the default
getter sets the provider's `ExternalID` exactly when the request's
`ExternalID` is non-empty, to exactly that value. -/
theorem cachedCredentialsGetter_defaults_and_request_shape
    (cfg : CachedCredentialsGetterConfig) (req : GetCredentialsRequest) :
    (cfg.Getter = none → ∀ g, NewCachedCredentialsGetter cfg = .ok g →
      g.config.Getter = some .defaultGetter) ∧
    (cfg.CacheTTL ≤ 0 → ∀ g, NewCachedCredentialsGetter cfg = .ok g →
      g.config.CacheTTL = timeMinute ∧ g.cache.TTL = timeMinute) ∧
    (∃ g, NewCachedCredentialsGetter cfg = .ok g) ∧
    ((credentialsGettterGet req).AssumeRoleOptions.ExternalID ≠ none ↔ req.ExternalID ≠ "") ∧
    (∀ x, (credentialsGettterGet req).AssumeRoleOptions.ExternalID = some x →
      x = req.ExternalID) := by
  have httl : 0 < cfg.SetDefaults.CacheTTL := by
    unfold CachedCredentialsGetterConfig.SetDefaults
    by_cases hg : cfg.Getter = none <;> by_cases ht : cfg.CacheTTL ≤ 0 <;>
      simp [hg, ht, timeMinute] <;> omega
  have hcache : NewFnCache cfg.SetDefaults.CacheTTL = .ok ⟨cfg.SetDefaults.CacheTTL⟩ := by
    unfold NewFnCache
    rw [if_neg (by omega)]
  have hnew : NewCachedCredentialsGetter cfg =
      .ok { config := cfg.SetDefaults, cache := ⟨cfg.SetDefaults.CacheTTL⟩ } := by
    unfold NewCachedCredentialsGetter
    simp only [hcache]
  refine ⟨?_, ?_, ⟨_, hnew⟩, ?_, ?_⟩
  · intro hg g hok
    rw [hnew] at hok
    simp only [Except.ok.injEq] at hok
    subst hok
    show cfg.SetDefaults.Getter = some .defaultGetter
    unfold CachedCredentialsGetterConfig.SetDefaults
    by_cases ht : cfg.CacheTTL ≤ 0 <;> simp [hg, ht]
  · intro ht g hok
    rw [hnew] at hok
    simp only [Except.ok.injEq] at hok
    subst hok
    have : cfg.SetDefaults.CacheTTL = timeMinute := by
      unfold CachedCredentialsGetterConfig.SetDefaults
      by_cases hg : cfg.Getter = none <;> simp [hg, ht]
    exact ⟨this, this⟩
  · unfold credentialsGettterGet
    by_cases hx : req.ExternalID = "" <;> simp [hx]
  · intro x hx
    unfold credentialsGettterGet at hx
    by_cases hxe : req.ExternalID = ""
    · simp [hxe] at hx
    · simp [hxe] at hx
      exact hx.symm

/-- Closed check of the getter defaults: an all-zero config yields the
default getter and a one-minute TTL, and a non-empty request external ID
reaches the provider. -/
theorem cachedCredentialsGetter_defaults_witness :
    ((⟨none, 0⟩ : CachedCredentialsGetterConfig).Getter = none) ∧
    NewCachedCredentialsGetter ⟨none, 0⟩ =
      .ok ⟨⟨some .defaultGetter, 60000000000⟩, ⟨60000000000⟩⟩ ∧
    (⟨⟨some .defaultGetter, 60000000000⟩, ⟨60000000000⟩⟩ :
      cachedCredentialsGetter).config.Getter = some .defaultGetter ∧
    ((credentialsGettterGet ⟨1, 2, "sess", "arn:aws:iam::111111111111:role/alpha",
      "xyz"⟩).AssumeRoleOptions.ExternalID ≠ none ↔ ("xyz" : String) ≠ "") := by
  refine ⟨rfl, by decide, ?_, ?_⟩
  · exact (cachedCredentialsGetter_defaults_and_request_shape ⟨none, 0⟩
      ⟨1, 2, "sess", "arn:aws:iam::111111111111:role/alpha", "xyz"⟩).1 rfl
      ⟨⟨some .defaultGetter, 60000000000⟩, ⟨60000000000⟩⟩ (by decide)
  · exact (cachedCredentialsGetter_defaults_and_request_shape ⟨none, 0⟩
      ⟨1, 2, "sess", "arn:aws:iam::111111111111:role/alpha", "xyz"⟩).2.2.2.1
